import Mathlib

/-!
Verification of the dialplan generator (`backend/dialplan.py`).

The generator is a pure compiler from five record collections (inbound
routes, call forwards, voicemail mailboxes, SIP peers, SIP trunks) to the
text of an Asterisk `extensions.conf`.  Python dicts are embedded as
insertion-ordered association lists with replace-in-place update (exactly
CPython's dict semantics), Python f-strings as explicit `String`
concatenation, and Python int formatting as `toString` on `Int`.
Literal braces in the emitted dialplan text are written with the escapes
`\x7b` and `\x7d`.
-/

/-- Record `InboundRoute` of the persistence layer: a public DID routed to
an internal extension over a trunk. -/
structure InboundRoute where
  did : String
  destination_extension : String
  description : Option String
  trunk_id : Int
deriving DecidableEq

/-- Record `CallForward`: a forwarding rule for one extension.
`forward_type` is one of "unconditional", "busy", "no_answer";
`ring_time` is read by the generator for no-answer forwards. -/
structure CallForward where
  extension : String
  forward_type : String
  destination : String
  ring_time : Int
deriving DecidableEq

/-- Record `VoicemailMailbox`: mailbox with an optional ring timeout. -/
structure VoicemailMailbox where
  extension : String
  ring_timeout : Option Int
deriving DecidableEq

/-- Record `SIPPeer`: a registered endpoint with optional outbound caller id
and optional P-Asserted-Identity user part. -/
structure SIPPeer where
  extension : String
  outbound_cid : Option String
  pai : Option String
deriving DecidableEq

/-- Record `SIPTrunk`: an external SIP carrier connection. -/
structure SIPTrunk where
  id : Int
  sip_server : String
deriving DecidableEq

/-- Python dict lookup `m.get(k)`: value stored under key `k`, if any.
Keys of maps built with `dinsert` are pairwise distinct, so the first
match is the stored value. -/
def dget {κ α : Type} [BEq κ] (m : List (κ × α)) (k : κ) : Option α :=
  (m.find? (fun p => p.1 == k)).map (fun p => p.2)

/-- Python dict assignment `m[k] = v`: replaces the value at `k` in place
when the key is present, otherwise appends the new binding at the end
(CPython dicts are insertion ordered). -/
def dinsert {κ α : Type} [BEq κ] (m : List (κ × α)) (k : κ) (v : α) : List (κ × α) :=
  match m with
  | [] => [(k, v)]
  | (k₁, v₁) :: rest => if k₁ == k then (k₁, v) :: rest else (k₁, v₁) :: dinsert rest k v

/-- The type of the forward map built by `_build_forward_map`:
extension -> (forward_type -> CallForward), both levels Python dicts. -/
abbrev ForwardMap := List (String × List (String × CallForward))

/-- Source `_build_forward_map` (dialplan.py lines 16-23): for each forward,
create the inner dict for its extension when missing, then assign the rule
under its `forward_type` key (last rule of a type wins). -/
def build_forward_map (forwards : List CallForward) : ForwardMap :=
  forwards.foldl
    (fun m fwd =>
      dinsert m fwd.extension (dinsert ((dget m fwd.extension).getD []) fwd.forward_type fwd))
    []

/-- Source `_generate_dial_logic` (dialplan.py lines 26-94), as the list of
lines the Python function appends to `lines`; the returned block is their
newline join (`generate_dial_logic`).  Each Lean string is the literal
f-string of the source with interpolations spelled as concatenation. -/
def dialLogicLines (extension : String) (fwd_map : ForwardMap) (ring_time : Int)
    (early_answer : Bool) : List String :=
  let forwards := (dget fwd_map extension).getD []
  let cfu := dget forwards "unconditional"
  let cfb := dget forwards "busy"
  let cfna := dget forwards "no_answer"
  match cfu with
  | some f =>
      [" same => n,NoOp(CFU active: forwarding to " ++ f.destination ++ ")"]
      ++ (if early_answer then [" same => n,Answer()", " same => n,Wait(0.5)"] else [])
      ++ [" same => n,Dial(PJSIP/" ++ f.destination ++ "@trunk," ++ toString ring_time ++ ",tT)",
          " same => n,Hangup()"]
  | none =>
      let actual_ring : Int := match cfna with | some f => f.ring_time | none => ring_time
      (if early_answer then [" same => n,Answer()", " same => n,Wait(0.5)"] else [])
      ++ [" same => n,Set(DEVICE_STATE=$\x7bDEVICE_STATE(PJSIP/" ++ extension ++ ")\x7d)",
          " same => n,GotoIf($[\"$\x7bDEVICE_STATE\x7d\" = \"UNAVAILABLE\"]?unavail)",
          " same => n,GotoIf($[\"$\x7bDEVICE_STATE\x7d\" = \"INVALID\"]?unavail)",
          " same => n,Dial(PJSIP/" ++ extension ++ "," ++ toString actual_ring ++ ",tTr)"]
      ++ (match cfb, cfna with
          | some b, some na =>
              [" same => n,GotoIf($[\"$\x7bDIALSTATUS\x7d\" = \"BUSY\"]?busy:noanswer)",
               " same => n(noanswer),NoOp(CFNA: forwarding to " ++ na.destination ++ ")",
               " same => n,Dial(PJSIP/" ++ na.destination ++ "@trunk,30,tT)",
               " same => n,VoiceMail(" ++ extension ++ "@default,u)",
               " same => n,Hangup()",
               " same => n(busy),NoOp(CFB: forwarding to " ++ b.destination ++ ")",
               " same => n,Dial(PJSIP/" ++ b.destination ++ "@trunk,30,tT)",
               " same => n,VoiceMail(" ++ extension ++ "@default,b)",
               " same => n,Hangup()"]
          | some b, none =>
              [" same => n,GotoIf($[\"$\x7bDIALSTATUS\x7d\" = \"BUSY\"]?busy:unavail)",
               " same => n(unavail),VoiceMail(" ++ extension ++ "@default,u)",
               " same => n,Hangup()",
               " same => n(busy),NoOp(CFB: forwarding to " ++ b.destination ++ ")",
               " same => n,Dial(PJSIP/" ++ b.destination ++ "@trunk,30,tT)",
               " same => n,VoiceMail(" ++ extension ++ "@default,b)",
               " same => n,Hangup()"]
          | none, some na =>
              [" same => n,GotoIf($[\"$\x7bDIALSTATUS\x7d\" = \"BUSY\"]?busy:noanswer)",
               " same => n(noanswer),NoOp(CFNA: forwarding to " ++ na.destination ++ ")",
               " same => n,Dial(PJSIP/" ++ na.destination ++ "@trunk,30,tT)",
               " same => n,VoiceMail(" ++ extension ++ "@default,u)",
               " same => n,Hangup()",
               " same => n(busy),VoiceMail(" ++ extension ++ "@default,b)",
               " same => n,Hangup()"]
          | none, none =>
              [" same => n,GotoIf($[\"$\x7bDIALSTATUS\x7d\" = \"BUSY\"]?busy:unavail)",
               " same => n(unavail),VoiceMail(" ++ extension ++ "@default,u)",
               " same => n,Hangup()",
               " same => n(busy),VoiceMail(" ++ extension ++ "@default,b)",
               " same => n,Hangup()"])

/-- Source `_generate_dial_logic` return value: `"\n".join(lines)`. -/
def generate_dial_logic (extension : String) (fwd_map : ForwardMap) (ring_time : Int)
    (early_answer : Bool) : String :=
  String.intercalate "\n" (dialLogicLines extension fwd_map ring_time early_answer)

/-- Placeholder value for Python's `ext_routes[0]` on lists that are nonempty
by construction (`routes_by_ext` only stores groups with at least one
route); never reached on the generator's own data. -/
def emptyRoute : InboundRoute := ⟨"", "", none, 0⟩

/-- Local `peer_map` of `_build_outbound_map` (lines 101-104): extension ->
SIPPeer, last record wins. -/
def peer_map_of (peers : List SIPPeer) : List (String × SIPPeer) :=
  peers.foldl (fun m p => dinsert m p.extension p) []

/-- Local `routes_by_ext` of `_build_outbound_map` (lines 107-112):
destination extension -> its inbound routes in input order. -/
def routes_by_ext (routes : List InboundRoute) : List (String × List InboundRoute) :=
  routes.foldl
    (fun m route =>
      dinsert m route.destination_extension
        ((dget m route.destination_extension).getD [] ++ [route]))
    []

/-- Value stored per extension by `_build_outbound_map`: the selected route
and the optional P-Asserted-Identity user part. -/
structure OutboundInfo where
  route : InboundRoute
  pai : Option String
deriving DecidableEq

/-- Loop body of `_build_outbound_map` (lines 115-127): the entry stored for
one extension and its (nonempty) route group.  Python truthiness of
`peer and peer.outbound_cid` is: a peer exists and its cid is present and
nonempty.  The selection walk `for r in ext_routes: if r.did == cid` with
`break` is `find?`, defaulting to `ext_routes[0]`. -/
def outbound_info_for (peer_map : List (String × SIPPeer)) (ext : String)
    (ext_routes : List InboundRoute) : OutboundInfo :=
  let peer := dget peer_map ext
  let defaultSel := ext_routes.headD emptyRoute
  let selected_route :=
    match peer with
    | none => defaultSel
    | some pr =>
        match pr.outbound_cid with
        | none => defaultSel
        | some cid =>
            if cid = "" then defaultSel
            else ((ext_routes.find? (fun r => r.did == cid)).getD defaultSel)
  ⟨selected_route, match peer with | some pr => pr.pai | none => none⟩

/-- Source `_build_outbound_map` (lines 97-128).  Iterating
`routes_by_ext.items()` and assigning `outbound[ext] = ...` appends one
binding per entry because the keys of a dict are pairwise distinct, hence
the `map`. -/
def build_outbound_map (routes : List InboundRoute) (peers : List SIPPeer) :
    List (String × OutboundInfo) :=
  let peer_map := peer_map_of peers
  (routes_by_ext routes).map (fun p => (p.1, outbound_info_for peer_map p.1 p.2))

/-- Python expression `mb.ring_timeout or 20` (line 133): `None` and `0` are
falsy, every other integer is kept. -/
def ring_or_default (t : Option Int) : Int :=
  match t with
  | none => 20
  | some v => if v == 0 then 20 else v

/-- Source `_build_ring_timeout_map` (lines 131-133): extension ->
`ring_timeout or 20`, last mailbox of an extension wins. -/
def build_ring_timeout_map (mailboxes : List VoicemailMailbox) : List (String × Int) :=
  mailboxes.foldl (fun m mb => dinsert m mb.extension (ring_or_default mb.ring_timeout)) []

/-- Trunk lookup built in `generate_extensions_config` (lines 143-146):
trunk id -> SIPTrunk. -/
def build_trunk_map (trunks : List SIPTrunk) : List (Int × SIPTrunk)  :=
  trunks.foldl (fun m t => dinsert m t.id t) []

/-- Lines 164-168 of `generate_extensions_config`: the set of extensions
needing a per-extension override (those with a forward rule, plus those
whose stored ring timeout differs from the 20 second default), as the
duplicate-free list underlying the Python `set`. -/
def override_extensions_list (fwd_map : ForwardMap)
    (ring_timeout_map : List (String × Int)) : List String :=
  ((fwd_map.map Prod.fst)
    ++ ((ring_timeout_map.filter (fun p => p.2 != 20)).map Prod.fst)).dedup

/-- Line 175: `sorted(override_extensions)` -- Python sorts strings by code
point, which is exactly the linear order on `String`. -/
def sorted_overrides (fwd_map : ForwardMap)
    (ring_timeout_map : List (String × Int)) : List String :=
  List.insertionSort (fun a b : String => a ≤ b)
    (override_extensions_list fwd_map ring_timeout_map)

/-- Fixed leading text of the output (lines 149-163): general options, the
globals section, and the `[internal]` context header with the generic
`_1XXX` pattern. -/
def internal_header : String :=
  "; Auto-generated dialplan configuration\n; Generated by Asterisk PBX GUI\n\n[general]\nstatic=yes\nwriteprotect=no\nclearglobalvars=no\n\n[globals]\n\n[internal]\n; Internal Extension Dialing (PJSIP)\nexten => _1XXX,1,NoOp(Internal Call from $\x7bCALLERID(all)\x7d to $\x7bEXTEN\x7d)\n same => n,Set(CALLERID(name)=$\x7bCALLERID(name)\x7d)\n"

/-- Per-extension override entry of the loop at lines 175-181. -/
def override_block (fwd_map : ForwardMap) (ring_timeout_map : List (String × Int))
    (ext : String) : String :=
  let ext_ring := (dget ring_timeout_map ext).getD 20
  "; Extension " ++ ext ++ " - custom rules\n"
  ++ "exten => " ++ ext ++ ",1,NoOp(Call to " ++ ext ++ " with forwarding)\n"
  ++ " same => n,Set(CALLERID(name)=$\x7bCALLERID(name)\x7d)\n"
  ++ generate_dial_logic ext fwd_map ext_ring false ++ "\n\n"

/-- The per-extension GotoIf test emitted for each outbound extension
(lines 188-189 and 210-211). -/
def outbound_ext_goto (ext : String) : String :=
  " same => n,GotoIf($[\"$\x7bCHANNEL(endpoint)\x7dx\" = \"" ++ ext ++ "x\"]?out-" ++ ext ++ ")\n"

/-- The labeled per-extension outbound block (lines 193-204 and 214-225):
set the caller id to the selected DID, optionally add a P-Asserted-Identity
header with the trunk's SIP server as domain (localhost when the trunk id
is unknown), dial out through the trunk for 120s, hang up.  Python
truthiness `if pai:` is: present and nonempty. -/
def outbound_ext_block (trunk_map : List (Int × SIPTrunk)) (p : String × OutboundInfo) :
    String :=
  let ext := p.1
  let route := p.2.route
  let pai := p.2.pai
  let tid := route.trunk_id
  "\n same => n(out-" ++ ext ++ "),NoOp(Outbound via trunk-ep-" ++ toString tid
    ++ " with CID " ++ route.did ++ ")\n"
  ++ " same => n,Set(CALLERID(num)=" ++ route.did ++ ")\n"
  ++ (match pai with
      | some pv =>
          if pv = "" then ""
          else
            let pai_domain := match dget trunk_map tid with
              | some t => t.sip_server
              | none => "localhost"
            " same => n,Set(PJSIP_HEADER(add,P-Asserted-Identity)=<sip:" ++ pv ++ "@"
              ++ pai_domain ++ ">)\n"
      | none => "")
  ++ " same => n,Dial(PJSIP/$\x7bEXTEN\x7d@trunk-ep-" ++ toString tid ++ ",120,tT)\n"
  ++ " same => n,Hangup()\n"

/-- Outbound contexts (lines 183-226): emitted only when the outbound map is
nonempty (`if outbound_map:`); a `_0X.` context and a `_+X.` context, each
walking every outbound extension and falling back to the no-service
announcement. -/
def outbound_section (outbound_map : List (String × OutboundInfo))
    (trunk_map : List (Int × SIPTrunk)) : String :=
  if outbound_map.isEmpty then ""
  else
    "; === Outbound calling via assigned trunks ===\n"
    ++ "exten => _0X.,1,NoOp(Outbound call from $\x7bCHANNEL(endpoint)\x7d to $\x7bEXTEN\x7d)\n"
    ++ String.join (outbound_map.map (fun p => outbound_ext_goto p.1))
    ++ " same => n,NoOp(No outbound route for this extension)\n"
    ++ " same => n,Playback(ss-noservice)\n"
    ++ " same => n,Hangup()\n"
    ++ String.join (outbound_map.map (outbound_ext_block trunk_map))
    ++ "\n"
    ++ "; International with + prefix\n"
    ++ "exten => _+X.,1,NoOp(Outbound intl call from $\x7bCHANNEL(endpoint)\x7d to $\x7bEXTEN\x7d)\n"
    ++ String.join (outbound_map.map (fun p => outbound_ext_goto p.1))
    ++ " same => n,Playback(ss-noservice)\n"
    ++ " same => n,Hangup()\n"
    ++ String.join (outbound_map.map (outbound_ext_block trunk_map))
    ++ "\n"

/-- Static utility extensions and the `[from-trunk]` header with the
DID-extraction fallback handler (lines 228-262). -/
def static_utilities_and_fromtrunk_header : String :=
  "; Voicemail access - dial *98 to check voicemail\nexten => *98,1,NoOp(Voicemail Access for $\x7bCALLERID(num)\x7d)\n same => n,Answer()\n same => n,Wait(0.5)\n same => n,VoiceMailMain($\x7bCALLERID(num)\x7d@default)\n same => n,Hangup()\n\n; Voicemail direct - dial *97 + extension\nexten => _*97XXXX,1,NoOp(Direct Voicemail for $\x7bEXTEN:3\x7d)\n same => n,Answer()\n same => n,Wait(0.5)\n same => n,VoiceMail($\x7bEXTEN:3\x7d@default)\n same => n,Hangup()\n\n; Echo test\nexten => *43,1,Answer()\n same => n,Echo()\n same => n,Hangup()\n\n[from-trunk]\n; Inbound DID routing - auto-generated\n\n; Extract DID from To header when Request-URI has no user part\nexten => s,1,NoOp(Inbound call with no DID in Request-URI)\n same => n,Set(TO_HDR=$\x7bPJSIP_HEADER(read,To)\x7d)\n same => n,Set(DID=$\x7bCUT(CUT(TO_HDR,@,1),:,2)\x7d)\n same => n,NoOp(Extracted DID: $\x7bDID\x7d)\n same => n,GotoIf($[$\x7bLEN($\x7bDID\x7d)\x7d > 0]?from-trunk,$\x7bDID\x7d,1)\n same => n,NoOp(Could not extract DID from To header)\n same => n,Hangup()\n\n"

/-- The `exten =>` header emitted for a DID pattern in the from-trunk
context (line 269); its pattern is the route's DID verbatim. -/
def header_of_did (did : String) : String :=
  "exten => " ++ did ++ ",1,NoOp(Inbound call to DID " ++ did ++ ")"

/-- The header line of the per-route entry for `r`. -/
def route_header_line (r : InboundRoute) : String :=
  header_of_did r.did

/-- One per-route entry of the from-trunk context (lines 265-273).  Python
`route.description or route.did` falls back to the DID when the description
is absent or empty. -/
def route_block (fwd_map : ForwardMap) (ring_timeout_map : List (String × Int))
    (route : InboundRoute) : String :=
  let desc := match route.description with
    | some d => if d = "" then route.did else d
    | none => route.did
  let ext := route.destination_extension
  let ext_ring := (dget ring_timeout_map ext).getD 20
  "\n; " ++ desc ++ "\n"
  ++ route_header_line route ++ "\n"
  ++ " same => n,Set(CALLERID(name)=$\x7bCALLERID(name)\x7d)\n"
  ++ generate_dial_logic ext fwd_map ext_ring true ++ "\n"

/-- Lines 264-279: one entry per inbound route, or the generic `_X.`
hang-up entry when no route is configured (`if routes:`). -/
def inbound_routes_section (fwd_map : ForwardMap)
    (ring_timeout_map : List (String × Int)) (routes : List InboundRoute) : String :=
  if routes.isEmpty then
    "\n; No inbound routes configured\nexten => _X.,1,NoOp(Unrouted inbound call to $\x7bEXTEN\x7d)\n same => n,Hangup()\n"
  else String.join (routes.map (route_block fwd_map ring_timeout_map))

/-- Final catch-all of the from-trunk context (lines 282-286). -/
def catch_all_section : String :=
  "\n; Catch-all for unmatched inbound calls\nexten => _[+0-9].,1,NoOp(Unmatched inbound DID $\x7bEXTEN\x7d)\n same => n,Hangup()\n"

/-- Source `generate_extensions_config` (lines 136-288): builds the lookup
maps, then emits in order the internal context (with the generic dial logic
at ring time 20, no forward lookup), the sorted per-extension overrides,
the outbound contexts, the static utilities with the from-trunk header, the
per-route inbound entries, and the catch-all. -/
def generate_extensions_config (routes : List InboundRoute) (forwards : List CallForward)
    (mailboxes : List VoicemailMailbox) (peers : List SIPPeer)
    (trunks : List SIPTrunk) : String :=
  let fwd_map := build_forward_map forwards
  let outbound_map := build_outbound_map routes peers
  let trunk_map := build_trunk_map trunks
  let ring_timeout_map := build_ring_timeout_map mailboxes
  (internal_header
    ++ generate_dial_logic "$\x7bEXTEN\x7d" [] 20 false ++ "\n\n"
    ++ String.join ((sorted_overrides fwd_map ring_timeout_map).map
        (override_block fwd_map ring_timeout_map))
    ++ outbound_section outbound_map trunk_map
    ++ static_utilities_and_fromtrunk_header
    ++ inbound_routes_section fwd_map ring_timeout_map routes)
  ++ catch_all_section

/-- Prefix test on character lists, recursing on the pattern first so that
an empty remaining pattern decides without inspecting the rest of the
line. -/
def charsStart : List Char → List Char → Bool
  | [], _ => true
  | _ :: _, [] => false
  | p :: ps, c :: cs => p == c && charsStart ps cs

/-- Boolean test: `p` is a prefix of the characters of `s`. -/
def strStarts (p s : String) : Bool := charsStart p.data s.data

/-- Boolean test: the two strings have the same characters. -/
def lineEq (a b : String) : Bool := a.data == b.data

/-- The line is the device-state probe or one of the two device-state
conditional jumps of `_generate_dial_logic` (lines 55-57). -/
def isDeviceStateLine (l : String) : Bool :=
  strStarts " same => n,Set(DEVICE_STATE=" l
  || strStarts " same => n,GotoIf($[\"$\x7bDEVICE_STATE\x7d\"" l

/-- The line is a `VoiceMail(` instruction, in any of the three label forms
the generator emits. -/
def isVoiceMailLine (l : String) : Bool :=
  strStarts " same => n,VoiceMail(" l
  || strStarts " same => n(unavail),VoiceMail(" l
  || strStarts " same => n(busy),VoiceMail(" l

/-- The line is a `Dial(` instruction (every Dial of the synthesizer is
unlabeled). -/
def isDialLine (l : String) : Bool := strStarts " same => n,Dial(" l

/-- The line is the `Hangup()` instruction. -/
def isHangupLine (l : String) : Bool := lineEq l " same => n,Hangup()"

/-- The `Answer()` line of the early-answer sequence. -/
def answerLine : String := " same => n,Answer()"

/-- The half-second `Wait` line of the early-answer sequence. -/
def waitLine : String := " same => n,Wait(0.5)"

/-- The line is an `Answer()` instruction. -/
def isAnswerLine (l : String) : Bool := lineEq l answerLine


/-- Number of occurrences of the (nonempty) pattern `pat` starting at each
position of `s`; used to count emitted header lines in concrete outputs. -/
def countOccur (pat : List Char) : List Char → Nat
  | [] => 0
  | c :: cs => (if pat.isPrefixOf (c :: cs) then 1 else 0) + countOccur pat cs

theorem dget_nil {κ α : Type} [BEq κ] (k : κ) : dget ([] : List (κ × α)) k = none := rfl

theorem dget_cons {κ α : Type} [BEq κ] (k₁ : κ) (v₁ : α) (rest : List (κ × α)) (k₂ : κ) :
    dget ((k₁, v₁) :: rest) k₂ = if k₁ == k₂ then some v₁ else dget rest k₂ := by
  cases h : k₁ == k₂ <;> simp [dget, List.find?_cons, h]

theorem dget_dinsert {κ α : Type} [BEq κ] [LawfulBEq κ] (m : List (κ × α)) (k k₂ : κ)
    (v : α) : dget (dinsert m k v) k₂ = if k₂ == k then some v else dget m k₂ := by
  induction m with
  | nil =>
      by_cases h : k₂ = k
      · subst h; simp [dinsert, dget_cons]
      · have h1 : (k == k₂) = false := beq_false_of_ne (fun e => h e.symm)
        have h2 : (k₂ == k) = false := beq_false_of_ne h
        simp [dinsert, dget_cons, h1, h2, dget_nil]
  | cons q rest ih =>
      obtain ⟨k₁, v₁⟩ := q
      by_cases hk : k₁ = k
      · subst hk
        by_cases h2 : k₂ = k₁
        · subst h2; simp [dinsert, dget_cons]
        · have h1 : (k₁ == k₂) = false := beq_false_of_ne (fun e => h2 e.symm)
          have h3 : (k₂ == k₁) = false := beq_false_of_ne h2
          simp [dinsert, dget_cons, h1, h3]
      · have hk1 : (k₁ == k) = false := beq_false_of_ne hk
        by_cases h2 : k₂ = k₁
        · subst h2
          have h3 : (k₂ == k) = false := beq_false_of_ne hk
          simp [dinsert, hk1, dget_cons, h3]
        · have h1 : (k₁ == k₂) = false := beq_false_of_ne (fun e => h2 e.symm)
          simp [dinsert, hk1, dget_cons, h1, ih]

theorem mem_dinsert {κ α : Type} [BEq κ] [LawfulBEq κ] (m : List (κ × α)) (k : κ) (v : α)
    (p : κ × α) (h : p ∈ dinsert m k v) : p ∈ m ∨ p = (k, v) := by
  induction m with
  | nil =>
      simp [dinsert] at h
      exact Or.inr h
  | cons q rest ih =>
      obtain ⟨k₁, v₁⟩ := q
      cases h1 : (k₁ == k) with
      | true =>
          simp only [dinsert, h1, if_true] at h
          rcases List.mem_cons.mp h with h2 | h2
          · exact Or.inr (by rw [h2, eq_of_beq h1])
          · exact Or.inl (List.mem_cons_of_mem _ h2)
      | false =>
          simp only [dinsert, h1, Bool.false_eq_true, if_false] at h
          rcases List.mem_cons.mp h with h2 | h2
          · exact Or.inl (h2 ▸ List.mem_cons_self _ _)
          · rcases ih h2 with h3 | h3
            · exact Or.inl (List.mem_cons_of_mem _ h3)
            · exact Or.inr h3

theorem keys_dinsert {κ α : Type} [BEq κ] (m : List (κ × α)) (k : κ) (v : α) :
    (dinsert m k v).map Prod.fst
      = if (m.map Prod.fst).any (fun x => x == k) then m.map Prod.fst
        else m.map Prod.fst ++ [k] := by
  induction m with
  | nil => simp [dinsert]
  | cons q rest ih =>
      obtain ⟨k₁, v₁⟩ := q
      cases h1 : (k₁ == k) with
      | true => simp [dinsert, h1]
      | false =>
          simp only [dinsert, h1, Bool.false_eq_true, if_false, List.map_cons, List.any_cons,
            Bool.false_or, ih]
          by_cases h2 : (rest.map Prod.fst).any (fun x => x == k) = true
          · simp [h2]
          · simp [h2]

theorem keys_mem_dinsert {κ α : Type} [BEq κ] [LawfulBEq κ] (m : List (κ × α)) (k x : κ)
    (v : α) : x ∈ (dinsert m k v).map Prod.fst ↔ x ∈ m.map Prod.fst ∨ x = k := by
  rw [keys_dinsert]
  by_cases h : (m.map Prod.fst).any (fun y => y == k) = true
  · rw [if_pos h]
    constructor
    · exact Or.inl
    · rintro (hx | rfl)
      · exact hx
      · rcases List.any_eq_true.mp h with ⟨y, hy, hb⟩
        exact (eq_of_beq hb) ▸ hy
  · rw [if_neg h]
    simp

theorem keys_nodup_dinsert {κ α : Type} [BEq κ] [LawfulBEq κ] (m : List (κ × α)) (k : κ)
    (v : α) (h : (m.map Prod.fst).Nodup) : ((dinsert m k v).map Prod.fst).Nodup := by
  rw [keys_dinsert]
  by_cases h1 : (m.map Prod.fst).any (fun y => y == k) = true
  · rwa [if_pos h1]
  · rw [if_neg h1]
    have hk : k ∉ m.map Prod.fst := by
      intro hk
      exact h1 (List.any_eq_true.mpr ⟨k, hk, beq_self_eq_true k⟩)
    simp [List.nodup_append, h, hk]

theorem dget_mem {κ α : Type} [BEq κ] [LawfulBEq κ] (m : List (κ × α)) (k : κ) (v : α)
    (h : dget m k = some v) : (k, v) ∈ m := by
  simp only [dget, Option.map_eq_some'] at h
  obtain ⟨p, hp, hv⟩ := h
  have hmem := List.mem_of_find?_eq_some hp
  have hkey := List.find?_some hp
  have h1 : p.1 = k := by simpa using hkey
  have h2 : (k, v) = p := by
    obtain ⟨a, b⟩ := p
    simp at h1 hv
    simp [h1, hv]
  rwa [h2]

theorem mem_dget {κ α : Type} [BEq κ] [LawfulBEq κ] (m : List (κ × α)) (k : κ) (v : α)
    (hn : (m.map Prod.fst).Nodup) (h : (k, v) ∈ m) : dget m k = some v := by
  induction m with
  | nil => simp at h
  | cons q rest ih =>
      obtain ⟨k₁, v₁⟩ := q
      have hn2 := List.nodup_cons.mp hn
      rcases List.mem_cons.mp h with h1 | h1
      · cases h1
        simp [dget_cons]
      · have hk1 : (k₁ == k) = false := by
          apply beq_false_of_ne
          intro e
          subst e
          exact hn2.1 (List.mem_map.mpr ⟨(k₁, v), h1, rfl⟩)
        rw [dget_cons, if_neg (by simp [hk1])]
        exact ih hn2.2 h1

theorem dget_eq_none_iff {κ α : Type} [BEq κ] [LawfulBEq κ] (m : List (κ × α)) (k : κ) :
    dget m k = none ↔ k ∉ m.map Prod.fst := by
  simp only [dget, Option.map_eq_none', List.find?_eq_none]
  constructor
  · intro h hk
    obtain ⟨p, hp, he⟩ := List.mem_map.mp hk
    exact absurd (by simp [he] : (p.1 == k) = true) (by simpa using h p hp)
  · intro h p hp hb
    exact h (List.mem_map.mpr ⟨p, hp, eq_of_beq (by simpa using hb)⟩)

theorem keys_nodup_foldl {κ α β : Type} [BEq κ] [LawfulBEq κ] (key : β → κ)
    (val : List (κ × α) → β → α) (l : List β) (m : List (κ × α))
    (h : (m.map Prod.fst).Nodup) :
    ((l.foldl (fun acc e => dinsert acc (key e) (val acc e)) m).map Prod.fst).Nodup := by
  induction l generalizing m with
  | nil => simpa using h
  | cons e es ih => exact ih _ (keys_nodup_dinsert _ _ _ h)

theorem foldl_values_pred {κ α β : Type} [BEq κ] [LawfulBEq κ] (P : α → Prop) (key : β → κ)
    (val : List (κ × α) → β → α) (l : List β) (m : List (κ × α))
    (hm : ∀ p ∈ m, P p.2) (hl : ∀ acc e, e ∈ l → P (val acc e)) :
    ∀ p ∈ l.foldl (fun acc e => dinsert acc (key e) (val acc e)) m, P p.2 := by
  induction l generalizing m with
  | nil => simpa using hm
  | cons e es ih =>
      intro p hp
      refine ih _ ?_ (fun acc e₂ he₂ => hl acc e₂ (List.mem_cons_of_mem _ he₂)) p hp
      intro q hq
      rcases mem_dinsert _ _ _ _ hq with h1 | h1
      · exact hm q h1
      · rw [h1]
        exact hl m e (List.mem_cons_self _ _)

theorem dinsert_ne_nil {κ α : Type} [BEq κ] (m : List (κ × α)) (k : κ) (v : α) :
    dinsert m k v ≠ [] := by
  cases m with
  | nil => simp [dinsert]
  | cons q rest =>
      obtain ⟨k₁, v₁⟩ := q
      simp only [dinsert]
      split <;> simp

theorem foldl_dinsert_ne_nil {κ α β : Type} [BEq κ] (key : β → κ)
    (val : List (κ × α) → β → α) (l : List β) (m : List (κ × α)) (hm : m ≠ []) :
    l.foldl (fun acc e => dinsert acc (key e) (val acc e)) m ≠ [] := by
  induction l generalizing m with
  | nil => simpa using hm
  | cons e es ih => exact ih _ (dinsert_ne_nil _ _ _)

theorem dget_map_kv {κ α β : Type} [BEq κ] (g : κ → α → β) (m : List (κ × α)) (k : κ) :
    dget (m.map (fun p => (p.1, g p.1 p.2))) k
      = Option.map (fun p : κ × α => g p.1 p.2) (m.find? (fun p => p.1 == k)) := by
  induction m with
  | nil => rfl
  | cons q rest ih =>
      obtain ⟨k₁, v₁⟩ := q
      cases h : (k₁ == k) with
      | true => simp [dget_cons, List.find?_cons, h]
      | false => simpa [dget_cons, List.find?_cons, h] using ih

theorem dget_map_kv_some {κ α β : Type} [BEq κ] [LawfulBEq κ] (g : κ → α → β)
    (m : List (κ × α)) (k : κ) (v : α) (h : dget m k = some v) :
    dget (m.map (fun p => (p.1, g p.1 p.2))) k = some (g k v) := by
  rw [dget_map_kv]
  simp only [dget, Option.map_eq_some'] at h
  obtain ⟨p, hp, hv⟩ := h
  have h1 : p.1 = k := by simpa using List.find?_some hp
  rw [hp]
  simp [h1, hv]

theorem dget_map_kv_none {κ α β : Type} [BEq κ] (g : κ → α → β)
    (m : List (κ × α)) (k : κ) (h : dget m k = none) :
    dget (m.map (fun p => (p.1, g p.1 p.2))) k = none := by
  rw [dget_map_kv]
  simp only [dget, Option.map_eq_none'] at h
  simp [h]

theorem dget_routes_foldl (routes : List InboundRoute)
    (m : List (String × List InboundRoute)) (ext : String) :
    dget (routes.foldl
      (fun acc route => dinsert acc route.destination_extension
        ((dget acc route.destination_extension).getD [] ++ [route])) m) ext
    = match dget m ext with
      | none =>
          if (routes.filter (fun r => r.destination_extension == ext)).isEmpty then none
          else some (routes.filter (fun r => r.destination_extension == ext))
      | some l => some (l ++ routes.filter (fun r => r.destination_extension == ext)) := by
  induction routes generalizing m with
  | nil => cases h : dget m ext <;> simp [h]
  | cons r rs ih =>
      rw [List.foldl_cons, ih]
      by_cases he : r.destination_extension = ext
      · have hb : (r.destination_extension == ext) = true := beq_iff_eq.mpr he
        have hb2 : (ext == r.destination_extension) = true := beq_iff_eq.mpr he.symm
        have hfil : List.filter (fun q => q.destination_extension == ext) (r :: rs)
            = r :: List.filter (fun q => q.destination_extension == ext) rs := by
          simp [List.filter_cons, hb]
        rw [dget_dinsert, if_pos hb2, hfil, he]
        cases hm : dget m ext with
        | none => simp
        | some l => simp
      · have hb : (r.destination_extension == ext) = false := beq_false_of_ne he
        have hb2 : (ext == r.destination_extension) = false :=
          beq_false_of_ne (fun e => he e.symm)
        have hfil : List.filter (fun q => q.destination_extension == ext) (r :: rs)
            = List.filter (fun q => q.destination_extension == ext) rs := by
          simp [List.filter_cons, hb]
        rw [dget_dinsert, if_neg (by simp [hb2]), hfil]

theorem dget_routes_by_ext (routes : List InboundRoute) (ext : String) :
    dget (routes_by_ext routes) ext
      = if (routes.filter (fun r => r.destination_extension == ext)).isEmpty then none
        else some (routes.filter (fun r => r.destination_extension == ext)) := by
  rw [routes_by_ext, dget_routes_foldl, dget_nil]

/-- C1: for any two invocations of the compiler with identical input
collections (same routes, forwards, mailboxes, peers and trunks, in the
same order), the two returned dialplan texts are byte-identical: the
generator is a pure function of its inputs, with no other state. -/
theorem generate_extensions_config_deterministic (routes : List InboundRoute)
    (forwards : List CallForward) (mailboxes : List VoicemailMailbox)
    (peers : List SIPPeer) (trunks : List SIPTrunk) :
    generate_extensions_config routes forwards mailboxes peers trunks
      = generate_extensions_config routes forwards mailboxes peers trunks := rfl

/-- C2: for every extension whose forward-map entry contains an
`unconditional` forward, the synthesized block contains no device-state
query line and no `VoiceMail(` instruction, and the unconditional-forward
dial through the trunk leg is emitted. -/
theorem unconditional_forward_short_circuit (extension : String) (fwd_map : ForwardMap)
    (ring_time : Int) (early_answer : Bool) (f : CallForward)
    (h : dget ((dget fwd_map extension).getD []) "unconditional" = some f) :
    (dialLogicLines extension fwd_map ring_time early_answer).all
        (fun l => !(isDeviceStateLine l) && !(isVoiceMailLine l)) = true
    ∧ (" same => n,Dial(PJSIP/" ++ f.destination ++ "@trunk," ++ toString ring_time
        ++ ",tT)") ∈ dialLogicLines extension fwd_map ring_time early_answer := by
  simp only [dialLogicLines, h]
  cases early_answer <;> exact ⟨rfl, by simp⟩

theorem unconditional_forward_short_circuit_witness :
    dget ((dget (build_forward_map [⟨"1001", "unconditional", "0171555", 25⟩]) "1001").getD [])
        "unconditional" = some ⟨"1001", "unconditional", "0171555", 25⟩
    ∧ ((dialLogicLines "1001" (build_forward_map [⟨"1001", "unconditional", "0171555", 25⟩])
          20 false).all (fun l => !(isDeviceStateLine l) && !(isVoiceMailLine l)) = true
      ∧ " same => n,Dial(PJSIP/0171555@trunk,20,tT)"
          ∈ dialLogicLines "1001" (build_forward_map [⟨"1001", "unconditional", "0171555", 25⟩])
              20 false) :=
  ⟨by decide,
    unconditional_forward_short_circuit "1001"
      (build_forward_map [⟨"1001", "unconditional", "0171555", 25⟩]) 20 false
      ⟨"1001", "unconditional", "0171555", 25⟩ (by decide)⟩

/-- C3: for every extension with no forward rule of any type, the
synthesized block contains exactly two `VoiceMail(` instructions, one with
the `u` greeting and one with the `b` greeting, exactly two `Hangup()`
instructions, and is never empty. -/
theorem default_fallback_completeness (extension : String) (fwd_map : ForwardMap)
    (ring_time : Int) (early_answer : Bool)
    (hu : dget ((dget fwd_map extension).getD []) "unconditional" = none)
    (hb : dget ((dget fwd_map extension).getD []) "busy" = none)
    (hn : dget ((dget fwd_map extension).getD []) "no_answer" = none) :
    (dialLogicLines extension fwd_map ring_time early_answer).countP isVoiceMailLine = 2
    ∧ (" same => n(unavail),VoiceMail(" ++ extension ++ "@default,u)")
        ∈ dialLogicLines extension fwd_map ring_time early_answer
    ∧ (" same => n(busy),VoiceMail(" ++ extension ++ "@default,b)")
        ∈ dialLogicLines extension fwd_map ring_time early_answer
    ∧ (dialLogicLines extension fwd_map ring_time early_answer).countP isHangupLine = 2
    ∧ dialLogicLines extension fwd_map ring_time early_answer ≠ [] := by
  simp only [dialLogicLines, hu, hb, hn]
  cases early_answer <;> exact ⟨rfl, by simp, by simp, rfl, by simp⟩

theorem default_fallback_completeness_witness :
    dget ((dget (build_forward_map []) "1002").getD []) "unconditional" = none
    ∧ ((dialLogicLines "1002" (build_forward_map []) 20 false).countP isVoiceMailLine = 2
      ∧ " same => n(unavail),VoiceMail(1002@default,u)"
          ∈ dialLogicLines "1002" (build_forward_map []) 20 false
      ∧ " same => n(busy),VoiceMail(1002@default,b)"
          ∈ dialLogicLines "1002" (build_forward_map []) 20 false
      ∧ (dialLogicLines "1002" (build_forward_map []) 20 false).countP isHangupLine = 2
      ∧ dialLogicLines "1002" (build_forward_map []) 20 false ≠ []) :=
  ⟨rfl, default_fallback_completeness "1002" (build_forward_map []) 20 false rfl rfl rfl⟩

/-- C8: in every block without an unconditional forward, the first `Dial(`
line is the dial of the called extension, whose duration is the no-answer
forward's configured ring time when one exists and the supplied ring
duration otherwise; the busy-forward and no-answer-forward dials themselves
are emitted with the fixed 30-second duration. -/
theorem dial_duration_rules (extension : String) (fwd_map : ForwardMap) (ring_time : Int)
    (early_answer : Bool)
    (hu : dget ((dget fwd_map extension).getD []) "unconditional" = none) :
    (dialLogicLines extension fwd_map ring_time early_answer).find? isDialLine
      = some (" same => n,Dial(PJSIP/" ++ extension ++ ","
          ++ toString (match dget ((dget fwd_map extension).getD []) "no_answer" with
                       | some f => f.ring_time
                       | none => ring_time) ++ ",tTr)")
    ∧ (∀ f, dget ((dget fwd_map extension).getD []) "busy" = some f →
        (" same => n,Dial(PJSIP/" ++ f.destination ++ "@trunk,30,tT)")
          ∈ dialLogicLines extension fwd_map ring_time early_answer)
    ∧ (∀ f, dget ((dget fwd_map extension).getD []) "no_answer" = some f →
        (" same => n,Dial(PJSIP/" ++ f.destination ++ "@trunk,30,tT)")
          ∈ dialLogicLines extension fwd_map ring_time early_answer) := by
  refine ⟨?_, ?_, ?_⟩
  · rcases hbv : dget ((dget fwd_map extension).getD []) "busy" with _ | b <;>
      rcases hnv : dget ((dget fwd_map extension).getD []) "no_answer" with _ | na <;>
      simp only [dialLogicLines, hu, hbv, hnv] <;> cases early_answer <;> rfl
  · intro f hf
    rcases hnv : dget ((dget fwd_map extension).getD []) "no_answer" with _ | na <;>
      simp only [dialLogicLines, hu, hf, hnv] <;> cases early_answer <;> simp
  · intro f hf
    rcases hbv : dget ((dget fwd_map extension).getD []) "busy" with _ | b <;>
      simp only [dialLogicLines, hu, hbv, hf] <;> cases early_answer <;> simp

theorem dial_duration_rules_witness :
    dget ((dget (build_forward_map [⟨"1003", "busy", "0664422", 18⟩,
        ⟨"1003", "no_answer", "0664433", 12⟩]) "1003").getD []) "unconditional" = none
    ∧ (dialLogicLines "1003" (build_forward_map [⟨"1003", "busy", "0664422", 18⟩,
        ⟨"1003", "no_answer", "0664433", 12⟩]) 20 true).find? isDialLine
        = some " same => n,Dial(PJSIP/1003,12,tTr)"
    ∧ " same => n,Dial(PJSIP/0664422@trunk,30,tT)"
        ∈ dialLogicLines "1003" (build_forward_map [⟨"1003", "busy", "0664422", 18⟩,
            ⟨"1003", "no_answer", "0664433", 12⟩]) 20 true :=
  ⟨by decide,
    (dial_duration_rules "1003" (build_forward_map [⟨"1003", "busy", "0664422", 18⟩,
        ⟨"1003", "no_answer", "0664433", 12⟩]) 20 true (by decide)).1,
    (dial_duration_rules "1003" (build_forward_map [⟨"1003", "busy", "0664422", 18⟩,
        ⟨"1003", "no_answer", "0664433", 12⟩]) 20 true (by decide)).2.1
      ⟨"1003", "busy", "0664422", 18⟩ (by decide)⟩

/-- C6: the synthesizer never emits an `Answer()` line when its
`early_answer` flag is false (the internal context and the per-extension
override blocks call it with `early_answer = false`, see `override_block`
and the internal part of `generate_extensions_config`), and with
`early_answer = true` (used exactly for the per-route blocks of the
from-trunk context, see `route_block`) it emits `Answer()` immediately
followed by `Wait(0.5)` before any device-state probe or `Dial(`. -/
theorem early_answer_only_on_inbound :
    (∀ (extension : String) (fwd_map : ForwardMap) (ring_time : Int),
      (dialLogicLines extension fwd_map ring_time false).all
        (fun l => !(isAnswerLine l)) = true)
    ∧ (∀ (extension : String) (fwd_map : ForwardMap) (ring_time : Int),
      ∃ pre post, dialLogicLines extension fwd_map ring_time true
          = pre ++ [answerLine, waitLine] ++ post
        ∧ pre.all (fun l => !(isDeviceStateLine l) && !(isDialLine l)) = true) := by
  constructor
  · intro extension fwd_map ring_time
    rcases hu : dget ((dget fwd_map extension).getD []) "unconditional" with _ | f
    · rcases hb : dget ((dget fwd_map extension).getD []) "busy" with _ | b <;>
        rcases hn : dget ((dget fwd_map extension).getD []) "no_answer" with _ | na <;>
        simp only [dialLogicLines, hu, hb, hn] <;> rfl
    · simp only [dialLogicLines, hu]
      rfl
  · intro extension fwd_map ring_time
    rcases hu : dget ((dget fwd_map extension).getD []) "unconditional" with _ | f
    · simp only [dialLogicLines, hu]
      exact ⟨[], _, rfl, rfl⟩
    · simp only [dialLogicLines, hu]
      exact ⟨[" same => n,NoOp(CFU active: forwarding to " ++ f.destination ++ ")"], _, rfl, rfl⟩

/-- C4: the list of extensions given a per-extension override block (which
`generate_extensions_config` walks, emitting exactly one block per element)
is strictly sorted lexicographically (hence duplicate-free) and contains
exactly the keys of the forward map together with the extensions whose
resolved mailbox ring timeout differs from 20. -/
theorem override_set_correct (forwards : List CallForward)
    (mailboxes : List VoicemailMailbox) :
    (sorted_overrides (build_forward_map forwards)
        (build_ring_timeout_map mailboxes)).Pairwise (· < ·)
    ∧ ∀ x : String,
        x ∈ sorted_overrides (build_forward_map forwards) (build_ring_timeout_map mailboxes)
          ↔ (x ∈ (build_forward_map forwards).map Prod.fst
              ∨ (dget (build_ring_timeout_map mailboxes) x).getD 20 ≠ 20) := by
  constructor
  · have hsorted := List.sorted_insertionSort (fun a b : String => a ≤ b)
      (override_extensions_list (build_forward_map forwards) (build_ring_timeout_map mailboxes))
    have hnd : (sorted_overrides (build_forward_map forwards)
        (build_ring_timeout_map mailboxes)).Nodup :=
      (List.perm_insertionSort _ _).nodup_iff.mpr (List.nodup_dedup _)
    exact (hsorted.and hnd).imp (fun h => lt_of_le_of_ne h.1 h.2)
  · intro x
    have hnodup : ((build_ring_timeout_map mailboxes).map Prod.fst).Nodup :=
      keys_nodup_foldl _ _ _ _ (by simp)
    rw [sorted_overrides, (List.perm_insertionSort _ _).mem_iff, override_extensions_list,
        List.mem_dedup, List.mem_append]
    have hfil : x ∈ ((build_ring_timeout_map mailboxes).filter
          (fun p => p.2 != 20)).map Prod.fst
        ↔ ∃ t, (x, t) ∈ build_ring_timeout_map mailboxes ∧ t ≠ 20 := by
      constructor
      · intro hx
        obtain ⟨p, hp, he⟩ := List.mem_map.mp hx
        obtain ⟨hpm, hpt⟩ := List.mem_filter.mp hp
        refine ⟨p.2, ?_, by simpa using hpt⟩
        rw [← he]
        exact hpm
      · rintro ⟨t, htm, ht⟩
        exact List.mem_map.mpr ⟨(x, t), List.mem_filter.mpr ⟨htm, by simpa using ht⟩, rfl⟩
    rw [hfil]
    constructor
    · rintro (hx | ⟨t, htm, ht⟩)
      · exact Or.inl hx
      · right
        rw [mem_dget _ _ _ hnodup htm]
        simpa using ht
    · rintro (hx | ht)
      · exact Or.inl hx
      · right
        cases hv : dget (build_ring_timeout_map mailboxes) x with
        | none => rw [hv] at ht; simp at ht
        | some t =>
            rw [hv] at ht
            exact ⟨t, dget_mem _ _ _ hv, by simpa using ht⟩

/-- C5: for an extension owning at least one inbound route (its group, in
input order, is `g :: gs`), the outbound map selects the first route `g`;
when the peer record for the extension has a nonempty `outbound_cid`, it
selects the first route of the group whose DID equals that cid, falling
back to `g` when none matches; the presence identity is the peer's `pai`
verbatim, and absent when no peer record exists. -/
theorem outbound_selection (routes : List InboundRoute) (peers : List SIPPeer)
    (ext : String) (g : InboundRoute) (gs : List InboundRoute)
    (hfil : routes.filter (fun r => r.destination_extension == ext) = g :: gs) :
    dget (build_outbound_map routes peers) ext
      = some ⟨(match dget (peer_map_of peers) ext with
               | none => g
               | some pr =>
                   match pr.outbound_cid with
                   | none => g
                   | some cid =>
                       if cid = "" then g
                       else ((g :: gs).find? (fun r => r.did == cid)).getD g),
              (match dget (peer_map_of peers) ext with
               | some pr => pr.pai
               | none => none)⟩ := by
  have h1 : dget (routes_by_ext routes) ext = some (g :: gs) := by
    rw [dget_routes_by_ext, hfil]
    simp
  have h2 := dget_map_kv_some (outbound_info_for (peer_map_of peers)) (routes_by_ext routes)
      ext (g :: gs) h1
  simp only [build_outbound_map]
  rw [h2]
  cases hp : dget (peer_map_of peers) ext with
  | none => simp [outbound_info_for, hp]
  | some pr =>
      cases hc : pr.outbound_cid with
      | none => simp [outbound_info_for, hp, hc]
      | some cid =>
          by_cases he : cid = ""
          · simp [outbound_info_for, hp, hc, he]
          · simp [outbound_info_for, hp, hc, he]

theorem outbound_selection_witness :
    ([⟨"4912340", "1001", none, 1⟩, ⟨"4912341", "1001", none, 1⟩] : List InboundRoute).filter
        (fun r => r.destination_extension == "1001")
      = [⟨"4912340", "1001", none, 1⟩, ⟨"4912341", "1001", none, 1⟩]
    ∧ dget (build_outbound_map [⟨"4912340", "1001", none, 1⟩, ⟨"4912341", "1001", none, 1⟩]
          [⟨"1001", some "4912341", none⟩]) "1001"
        = some ⟨⟨"4912341", "1001", none, 1⟩, none⟩ :=
  ⟨by decide,
    outbound_selection [⟨"4912340", "1001", none, 1⟩, ⟨"4912341", "1001", none, 1⟩]
      [⟨"1001", some "4912341", none⟩] "1001" ⟨"4912340", "1001", none, 1⟩
      [⟨"4912341", "1001", none, 1⟩] (by decide)⟩

/-- C9: a mailbox ring timeout of 0 (like an absent one) resolves to the
20-second default, the ring-timeout map never stores 0, and mailboxes
whose timeout is 0 produce no per-extension override on their own (with no
forward rules the override list stays empty). -/
theorem ring_timeout_zero_defaults :
    ring_or_default (some 0) = 20
    ∧ ring_or_default none = 20
    ∧ (∀ (mailboxes : List VoicemailMailbox) (ext : String) (t : Int),
        dget (build_ring_timeout_map mailboxes) ext = some t → t ≠ 0)
    ∧ (∀ mailboxes : List VoicemailMailbox,
        (∀ mb ∈ mailboxes, mb.ring_timeout = some 0 ∨ mb.ring_timeout = none) →
        sorted_overrides (build_forward_map []) (build_ring_timeout_map mailboxes) = []) := by
  have hror : ∀ t, ring_or_default t ≠ 0 := by
    intro t
    cases t with
    | none => simp [ring_or_default]
    | some v =>
        by_cases hv : (v == 0) = true
        · simp [ring_or_default, hv]
        · simp only [ring_or_default, hv, if_false, Bool.false_eq_true]
          simpa using hv
  refine ⟨rfl, rfl, ?_, ?_⟩
  · intro mailboxes ext t ht
    have hm := dget_mem _ _ _ ht
    rw [build_ring_timeout_map] at hm
    exact foldl_values_pred (fun v => v ≠ 0) _ _ mailboxes [] (by simp)
      (fun acc mb hmb => hror _) (ext, t) hm
  · intro mailboxes hall
    have hvals : ∀ p ∈ build_ring_timeout_map mailboxes, p.2 = 20 := by
      intro p hp
      rw [build_ring_timeout_map] at hp
      refine foldl_values_pred (fun v => v = 20) _ _ mailboxes [] (by simp) ?_ p hp
      intro acc mb hmb
      rcases hall mb hmb with h | h <;> simp [ring_or_default, h]
    have hfil : (build_ring_timeout_map mailboxes).filter (fun p => p.2 != 20) = [] := by
      rw [List.filter_eq_nil_iff]
      intro p hp
      simp [hvals p hp]
    rw [sorted_overrides, override_extensions_list, build_forward_map]
    simp [hfil]

theorem ring_timeout_zero_defaults_witness :
    (∀ mb ∈ ([⟨"1001", some 0⟩] : List VoicemailMailbox),
        mb.ring_timeout = some 0 ∨ mb.ring_timeout = none)
    ∧ sorted_overrides (build_forward_map [])
        (build_ring_timeout_map [⟨"1001", some 0⟩]) = [] :=
  ⟨by intro mb hmb; simp at hmb; simp [hmb],
    ring_timeout_zero_defaults.2.2.2 [⟨"1001", some 0⟩]
      (by intro mb hmb; simp at hmb; simp [hmb])⟩

/-- C10: the outbound map is nonempty exactly when the inbound-route list
is nonempty; with no routes the compiler emits no outbound section at all
(not even the no-service fallback); and a peer for an extension owning no
inbound route never produces an outbound mapping. -/
theorem outbound_only_from_routes (routes : List InboundRoute) (peers : List SIPPeer)
    (trunks : List SIPTrunk) (ext : String) :
    (build_outbound_map routes peers = [] ↔ routes = [])
    ∧ outbound_section (build_outbound_map [] peers) (build_trunk_map trunks) = ""
    ∧ (routes.filter (fun r => r.destination_extension == ext) = [] →
        dget (build_outbound_map routes peers) ext = none) := by
  refine ⟨?_, rfl, ?_⟩
  · constructor
    · intro h
      cases routes with
      | nil => rfl
      | cons r rs =>
          exfalso
          have hne : routes_by_ext (r :: rs) ≠ [] := by
            rw [routes_by_ext, List.foldl_cons]
            exact foldl_dinsert_ne_nil _ _ _ _ (dinsert_ne_nil _ _ _)
          simp only [build_outbound_map] at h
          exact hne (List.map_eq_nil_iff.mp h)
    · intro h
      subst h
      rfl
  · intro hf
    have h1 : dget (routes_by_ext routes) ext = none := by
      rw [dget_routes_by_ext, hf]
      simp
    simp only [build_outbound_map]
    exact dget_map_kv_none _ _ _ h1

theorem outbound_only_from_routes_witness :
    ([⟨"4912340", "1001", none, 1⟩] : List InboundRoute).filter
        (fun r => r.destination_extension == "2000") = []
    ∧ dget (build_outbound_map [⟨"4912340", "1001", none, 1⟩]
        [⟨"2000", some "4912340", none⟩]) "2000" = none :=
  ⟨by decide,
    (outbound_only_from_routes [⟨"4912340", "1001", none, 1⟩]
        [⟨"2000", some "4912340", none⟩] [] "2000").2.2 (by decide)⟩

theorem string_data_append (a b : String) : (a ++ b).data = a.data ++ b.data := rfl

theorem header_of_did_injective : Function.Injective header_of_did := by
  intro a b h
  have hd : ((("exten => ".data ++ a.data) ++ ",1,NoOp(Inbound call to DID ".data)
        ++ a.data) ++ ")".data
      = ((("exten => ".data ++ b.data) ++ ",1,NoOp(Inbound call to DID ".data)
        ++ b.data) ++ ")".data := congrArg String.data h
  have hlen : a.data.length = b.data.length := by
    have := congrArg List.length hd
    simp only [List.length_append] at this
    omega
  rw [List.append_assoc, List.append_assoc, List.append_assoc, List.append_assoc,
    List.append_assoc, List.append_assoc] at hd
  have h1 := (List.append_inj hd rfl).2
  have h2 := (List.append_inj h1 hlen).1
  cases a
  cases b
  exact congrArg String.mk h2

set_option maxRecDepth 10000 in
theorem fromtrunk_duplicate_did_counterexample :
    ¬ (([⟨"4900", "1001", none, 1⟩, ⟨"4900", "1002", none, 1⟩] : List InboundRoute).map
        route_header_line).Pairwise (fun a b => a ≠ b)
    ∧ countOccur ("exten => 4900,1,".data)
        ((inbound_routes_section (build_forward_map []) (build_ring_timeout_map [])
          [⟨"4900", "1001", none, 1⟩, ⟨"4900", "1002", none, 1⟩]).data) = 2 := by
  exact ⟨by decide, by decide⟩

/-- C7 (amended): when the inbound routes carry pairwise-distinct DIDs --
the data model's invariant, which the generator does not itself enforce --
the emitted per-route extension-match header lines are pairwise distinct,
and (for every input) the catch-all block is the final text of the
generated output, after every per-route entry. -/
theorem fromtrunk_did_patterns_distinct (routes : List InboundRoute)
    (forwards : List CallForward) (mailboxes : List VoicemailMailbox)
    (peers : List SIPPeer) (trunks : List SIPTrunk)
    (h : (routes.map (fun r => r.did)).Nodup) :
    (routes.map route_header_line).Pairwise (fun a b => a ≠ b)
    ∧ List.IsSuffix catch_all_section.data
        ((generate_extensions_config routes forwards mailboxes peers trunks).data) := by
  constructor
  · have hmm : (routes.map (fun r => r.did)).map header_of_did
        = routes.map route_header_line := by
      rw [List.map_map]
      rfl
    rw [← hmm]
    exact h.map header_of_did_injective
  · exact List.suffix_append _ _

theorem fromtrunk_did_patterns_distinct_witness :
    (([⟨"4900", "1001", none, 1⟩, ⟨"4901", "1002", none, 1⟩] : List InboundRoute).map
        (fun r => r.did)).Nodup
    ∧ (([⟨"4900", "1001", none, 1⟩, ⟨"4901", "1002", none, 1⟩] : List InboundRoute).map
        route_header_line).Pairwise (fun a b => a ≠ b)
    ∧ List.IsSuffix catch_all_section.data
        ((generate_extensions_config [⟨"4900", "1001", none, 1⟩, ⟨"4901", "1002", none, 1⟩]
          [] [] [] []).data) :=
  ⟨by decide,
    (fromtrunk_did_patterns_distinct [⟨"4900", "1001", none, 1⟩, ⟨"4901", "1002", none, 1⟩]
      [] [] [] [] (by decide)).1,
    (fromtrunk_did_patterns_distinct [⟨"4900", "1001", none, 1⟩, ⟨"4901", "1002", none, 1⟩]
      [] [] [] [] (by decide)).2⟩
